import Mathlib

/-!
Verification of the Rust market-data / execution gateway
(`src/rust_engine/src/main.rs`) against its specification.

Shallow embedding conventions:
* `f64` prices and quantities are modelled as exact rationals `ℚ`; the
  Rust `as i64` cast of a nonnegative in-range float is truncation toward
  zero (saturation and NaN behaviour of `as` are outside the modelled
  range and not represented).
* `u64` counters and sequence ids are modelled as `ℕ` (no claim exercises
  wrap-around).
* `BTreeMap<i64, f64>` is modelled as an association list `List (ℤ × ℚ)`
  kept sorted strictly ascending by key by its insert operation; the map
  queries (`next_back`, `next`) are taken as maximum/minimum key, which
  agrees with the iteration order of the sorted representation.
* `HashSet<String>` is modelled as `Finset String`.
* Clock reads (`Instant::now`, `Utc::now`) and the generated uuid are
  extra explicit parameters (`now_ns`, `latency_ns`, `uuid`) since the
  book and engine logic never branch on them.
* The fallible `Result<OrderAck, String>` is `Except String OrderAck`;
  `apply_delta`'s `&mut self` plus `bool` return becomes an explicit
  `Bool × L2Orderbook` pair.
-/

/-- Truncation toward zero on `ℚ`, the behaviour of Rust's `as i64`
cast on an in-range value. -/
def ratTrunc (q : ℚ) : ℤ := if 0 ≤ q then ⌊q⌋ else ⌈q⌉

/-- Model of `BTreeMap::insert` on the key-sorted association-list model: replaces
the entry at an existing key, otherwise inserts at the sorted position. -/
def bookInsert (k : ℤ) (q : ℚ) : List (ℤ × ℚ) → List (ℤ × ℚ)
  | [] => [(k, q)]
  | (k', q') :: rest =>
    if k < k' then (k, q) :: (k', q') :: rest
    else if k = k' then (k, q) :: rest
    else (k', q') :: bookInsert k q rest

/-- Model of `BTreeMap::remove` on the association-list model (keys are unique, so
removing the first occurrence removes the entry). -/
def bookErase (k : ℤ) : List (ℤ × ℚ) → List (ℤ × ℚ)
  | [] => []
  | (k', q') :: rest => if k = k' then rest else (k', q') :: bookErase k rest

/-- Model of `OrderbookLevel`: a (price, quantity) pair. -/
structure OrderbookLevel where
  price : ℚ
  quantity : ℚ
deriving DecidableEq

/-- Model of `OrderbookSnapshot`: full book replacement at a sequence id. -/
structure OrderbookSnapshot where
  symbol : String
  bids : List OrderbookLevel
  asks : List OrderbookLevel
  seq_id : ℕ
  timestamp_ns : ℤ

/-- Model of `L2Orderbook`: per-instrument book state. -/
structure L2Orderbook where
  symbol : String
  bids : List (ℤ × ℚ)
  asks : List (ℤ × ℚ)
  last_seq_id : ℕ
  last_update_ns : ℤ
  total_updates : ℕ
  gaps_detected : ℕ
deriving DecidableEq

/-- Model of `L2Orderbook::new`. -/
def L2Orderbook.new (symbol : String) : L2Orderbook :=
  { symbol := symbol
    bids := []
    asks := []
    last_seq_id := 0
    last_update_ns := 0
    total_updates := 0
    gaps_detected := 0 }

/-- Model of `L2Orderbook::price_to_key`: `(price * 1_000_000.0) as i64`. -/
def L2Orderbook.price_to_key (price : ℚ) : ℤ := ratTrunc (price * 1000000)

/-- Model of `L2Orderbook::key_to_price`: `key as f64 / 1_000_000.0`. -/
def L2Orderbook.key_to_price (key : ℤ) : ℚ := (key : ℚ) / 1000000

/-- Model of `L2Orderbook::apply_snapshot`: clears both sides, inserts every
snapshot level at its quantized price, sets `last_seq_id` and
`last_update_ns`, and increments `total_updates`. -/
def L2Orderbook.apply_snapshot (book : L2Orderbook)
    (snapshot : OrderbookSnapshot) : L2Orderbook :=
  { book with
    bids := snapshot.bids.foldl
      (fun b level => bookInsert (L2Orderbook.price_to_key level.price) level.quantity b) []
    asks := snapshot.asks.foldl
      (fun b level => bookInsert (L2Orderbook.price_to_key level.price) level.quantity b) []
    last_seq_id := snapshot.seq_id
    last_update_ns := snapshot.timestamp_ns
    total_updates := book.total_updates + 1 }

/-- Model of `L2Orderbook::apply_delta`: rejects on a sequence gap
(`last_seq_id > 0 && seq_id != last_seq_id + 1`), incrementing only
`gaps_detected`; otherwise removes the level when `qty <= 0.0`, inserts
or overwrites it otherwise, advances `last_seq_id`, stamps
`last_update_ns` (the clock read is the explicit `now_ns` argument) and
increments `total_updates`. -/
def L2Orderbook.apply_delta (book : L2Orderbook) (price qty : ℚ)
    (is_bid : Bool) (seq_id : ℕ) (now_ns : ℤ) : Bool × L2Orderbook :=
  if book.last_seq_id > 0 ∧ seq_id ≠ book.last_seq_id + 1 then
    (false, { book with gaps_detected := book.gaps_detected + 1 })
  else
    let key := L2Orderbook.price_to_key price
    let side := if is_bid then book.bids else book.asks
    let side' := if qty ≤ 0 then bookErase key side else bookInsert key qty side
    let book' := if is_bid then { book with bids := side' } else { book with asks := side' }
    (true, { book' with
             last_seq_id := seq_id
             last_update_ns := now_ns
             total_updates := book.total_updates + 1 })

/-- Model of `L2Orderbook::best_bid`: greatest bid key, converted back to a price. -/
def L2Orderbook.best_bid (book : L2Orderbook) : Option ℚ :=
  (book.bids.map Prod.fst).max?.map L2Orderbook.key_to_price

/-- Model of `L2Orderbook::best_ask`: least ask key, converted back to a price. -/
def L2Orderbook.best_ask (book : L2Orderbook) : Option ℚ :=
  (book.asks.map Prod.fst).min?.map L2Orderbook.key_to_price

/-- Model of `L2Orderbook::mid_price`: defined only when both sides are non-empty. -/
def L2Orderbook.mid_price (book : L2Orderbook) : Option ℚ :=
  match book.best_bid, book.best_ask with
  | some bid, some ask => some ((bid + ask) / 2)
  | _, _ => none

/-- Model of `L2Orderbook::depth`: up to `levels` levels per side, bids
best-to-worst (descending keys), asks best-to-worst (ascending keys),
reading the sorted association list like the `BTreeMap` iterators. -/
def L2Orderbook.depth (book : L2Orderbook) (levels : ℕ) :
    List OrderbookLevel × List OrderbookLevel :=
  (book.bids.reverse.take levels |>.map
     (fun kv => { price := L2Orderbook.key_to_price kv.1, quantity := kv.2 }),
   book.asks.take levels |>.map
     (fun kv => { price := L2Orderbook.key_to_price kv.1, quantity := kv.2 }))

/-- Model of `OrderRequest`. -/
structure OrderRequest where
  client_id : String
  symbol : String
  side : String
  quantity : ℚ
  price : ℚ
  order_type : String
  idempotency_key : String
  timestamp_ns : ℤ

/-- Model of `OrderAck`. -/
structure OrderAck where
  client_id : String
  exchange_order_id : String
  status : String
  timestamp_ns : ℤ
  latency_ns : ℤ

/-- Model of `ExecutionEngine` state. -/
structure ExecutionEngine where
  submitted_keys : Finset String
  total_submitted : ℕ
  total_duplicates : ℕ
  total_fills : ℕ

/-- Model of `ExecutionEngine::new`. -/
def ExecutionEngine.new : ExecutionEngine :=
  { submitted_keys := ∅
    total_submitted := 0
    total_duplicates := 0
    total_fills := 0 }

/-- Model of `ExecutionEngine::submit_order`: duplicate keys are rejected with an
error and only the duplicate counter moves; a fresh key is inserted,
then the set is cleared whenever its size exceeds 100 000, and an ack
with status "SUBMITTED" is returned (`uuid`, `now_ns`, `latency_ns` are
the explicit stand-ins for the uuid generation and clock reads). -/
def ExecutionEngine.submit_order (e : ExecutionEngine) (req : OrderRequest)
    (uuid : String) (now_ns latency_ns : ℤ) :
    Except String OrderAck × ExecutionEngine :=
  if req.idempotency_key ∈ e.submitted_keys then
    (Except.error ("DUPLICATE_ORDER: key=" ++ req.idempotency_key),
     { e with total_duplicates := e.total_duplicates + 1 })
  else
    let keys := insert req.idempotency_key e.submitted_keys
    let keys := if keys.card > 100000 then (∅ : Finset String) else keys
    (Except.ok
      { client_id := req.client_id
        exchange_order_id := "EX-" ++ uuid
        status := "SUBMITTED"
        timestamp_ns := now_ns
        latency_ns := latency_ns },
     { e with
       submitted_keys := keys
       total_submitted := e.total_submitted + 1 })

/-- Model of `percentile`: sorts a copy and indexes at
`min (pct * n / 100) (n - 1)`; empty input yields 0. -/
def percentile (samples : List ℤ) (pct : ℕ) : ℤ :=
  if samples.isEmpty then 0
  else
    let sorted := List.insertionSort (· ≤ ·) samples
    let idx := min (pct * sorted.length / 100) (sorted.length - 1)
    sorted.getD idx 0

/-- A single delta message: the arguments of one `apply_delta` call. -/
structure DeltaMsg where
  price : ℚ
  qty : ℚ
  is_bid : Bool
  seq_id : ℕ
  now_ns : ℤ

/-- Fold a list of delta messages through `apply_delta`, keeping the
book (accepted or not) after each call. -/
def runDeltas (book : L2Orderbook) (ds : List DeltaMsg) : L2Orderbook :=
  ds.foldl (fun b d => (b.apply_delta d.price d.qty d.is_bid d.seq_id d.now_ns).2) book

/-- The spec's direct per-level fold: apply each delta's insert/remove
to a bare (bids, asks) pair with no sequencing state at all. -/
def applyLevelDirect (sides : List (ℤ × ℚ) × List (ℤ × ℚ)) (d : DeltaMsg) :
    List (ℤ × ℚ) × List (ℤ × ℚ) :=
  let key := L2Orderbook.price_to_key d.price
  if d.is_bid then
    (if d.qty ≤ 0 then bookErase key sides.1 else bookInsert key d.qty sides.1, sides.2)
  else
    (sides.1, if d.qty ≤ 0 then bookErase key sides.2 else bookInsert key d.qty sides.2)

/-- One book operation: a snapshot application or a delta call. -/
inductive BookOp where
  | snap (s : OrderbookSnapshot)
  | delta (d : DeltaMsg)

/-- Fold a list of book operations through the book engine. -/
def runOps (book : L2Orderbook) (ops : List BookOp) : L2Orderbook :=
  ops.foldl
    (fun b op =>
      match op with
      | BookOp.snap s => b.apply_snapshot s
      | BookOp.delta d => (b.apply_delta d.price d.qty d.is_bid d.seq_id d.now_ns).2)
    book

/-- All prices an operation supplies on the bid side. -/
def opBidPrices : BookOp → List ℚ
  | BookOp.snap s => s.bids.map OrderbookLevel.price
  | BookOp.delta d => if d.is_bid then [d.price] else []

/-- All prices an operation supplies on the ask side. -/
def opAskPrices : BookOp → List ℚ
  | BookOp.snap s => s.asks.map OrderbookLevel.price
  | BookOp.delta d => if d.is_bid then [] else [d.price]

/-- A fixed order request carrying a given idempotency key (the non-key
fields play no role in the idempotency logic). -/
def mkReq (key : String) : OrderRequest :=
  { client_id := "C1"
    symbol := "BTCUSDT"
    side := "BUY"
    quantity := 1
    price := 100
    order_type := "LIMIT"
    idempotency_key := key
    timestamp_ns := 0 }

/-- Fold a list of keys through `submit_order`, keeping the engine. -/
def runSubmits (e : ExecutionEngine) (keys : List String) : ExecutionEngine :=
  keys.foldl (fun e k => (e.submit_order (mkReq k) "u" 0 0).2) e

/-- The n-th distinct idempotency key used in the capacity scenarios. -/
def keyN (n : ℕ) : String := String.mk (List.replicate n 'a')

/-! ### Helper lemmas -/

lemma ptk_100 : L2Orderbook.price_to_key 100 = 100000000 := by
  rw [L2Orderbook.price_to_key, ratTrunc, if_pos (by norm_num)]; norm_num

lemma ptk_10005 : L2Orderbook.price_to_key 100.05 = 100050000 := by
  rw [L2Orderbook.price_to_key, ratTrunc, if_pos (by norm_num)]; norm_num

lemma ptk_10010 : L2Orderbook.price_to_key 100.10 = 100100000 := by
  rw [L2Orderbook.price_to_key, ratTrunc, if_pos (by norm_num)]; norm_num

lemma ptk_101 : L2Orderbook.price_to_key 101 = 101000000 := by
  rw [L2Orderbook.price_to_key, ratTrunc, if_pos (by norm_num)]; norm_num

/-- Removing an absent key from a side is a no-op. -/
lemma bookErase_not_mem (k : ℤ) (b : List (ℤ × ℚ)) (h : k ∉ b.map Prod.fst) :
    bookErase k b = b := by
  induction b with
  | nil => rfl
  | cons hd tl ih =>
    simp only [List.map_cons, List.mem_cons, not_or] at h
    simp only [bookErase, if_neg h.1, ih h.2]

/-- On a non-gap call, `apply_delta` takes its success branch. -/
lemma apply_delta_accept (b : L2Orderbook) (price qty : ℚ) (is_bid : Bool)
    (seq_id : ℕ) (now_ns : ℤ)
    (h : b.last_seq_id = 0 ∨ seq_id = b.last_seq_id + 1) :
    b.apply_delta price qty is_bid seq_id now_ns =
      (true,
       { b with
         bids := if is_bid then
             (if qty ≤ 0 then bookErase (L2Orderbook.price_to_key price) b.bids
              else bookInsert (L2Orderbook.price_to_key price) qty b.bids)
           else b.bids
         asks := if is_bid then b.asks
           else (if qty ≤ 0 then bookErase (L2Orderbook.price_to_key price) b.asks
                 else bookInsert (L2Orderbook.price_to_key price) qty b.asks)
         last_seq_id := seq_id
         last_update_ns := now_ns
         total_updates := b.total_updates + 1 }) := by
  have hcond : ¬(b.last_seq_id > 0 ∧ seq_id ≠ b.last_seq_id + 1) := by
    rcases h with h | h
    · simp [h]
    · simp [h]
  rw [L2Orderbook.apply_delta, if_neg hcond]
  cases is_bid <;> simp

/-! ### C1 -/

/-- C1: If the book has a prior sequence (`last_seq_id > 0`) and the
delta's `seq_id` is not `last_seq_id + 1`, `apply_delta` returns `false`,
increments `gaps_detected` by exactly 1, and leaves the bid map, the ask
map and `last_seq_id` unchanged. -/
theorem claim_C1_gap_rejected (b : L2Orderbook) (price qty : ℚ) (is_bid : Bool)
    (seq_id : ℕ) (now_ns : ℤ)
    (h1 : 0 < b.last_seq_id) (h2 : seq_id ≠ b.last_seq_id + 1) :
    (b.apply_delta price qty is_bid seq_id now_ns).1 = false ∧
    (b.apply_delta price qty is_bid seq_id now_ns).2.bids = b.bids ∧
    (b.apply_delta price qty is_bid seq_id now_ns).2.asks = b.asks ∧
    (b.apply_delta price qty is_bid seq_id now_ns).2.last_seq_id = b.last_seq_id ∧
    (b.apply_delta price qty is_bid seq_id now_ns).2.gaps_detected = b.gaps_detected + 1 := by
  rw [L2Orderbook.apply_delta, if_pos (And.intro h1 h2)]
  exact ⟨rfl, rfl, rfl, rfl, rfl⟩

/-- The book after a (contentless) snapshot at sequence 5. -/
def c1_book : L2Orderbook :=
  (L2Orderbook.new "BTCUSDT").apply_snapshot
    { symbol := "BTCUSDT", bids := [], asks := [], seq_id := 5, timestamp_ns := 0 }

/-- C1 witness: After a snapshot at sequence 5, a delta at sequence 8
fails, the book is unchanged, `last_seq_id` remains 5 and the gap counter
moves by one. -/
theorem claim_C1_gap_rejected_witness :
    0 < c1_book.last_seq_id ∧ (8 : ℕ) ≠ c1_book.last_seq_id + 1 ∧
    ((c1_book.apply_delta 100 1 true 8 0).1 = false ∧
     (c1_book.apply_delta 100 1 true 8 0).2.bids = c1_book.bids ∧
     (c1_book.apply_delta 100 1 true 8 0).2.asks = c1_book.asks ∧
     (c1_book.apply_delta 100 1 true 8 0).2.last_seq_id = c1_book.last_seq_id ∧
     (c1_book.apply_delta 100 1 true 8 0).2.gaps_detected = c1_book.gaps_detected + 1) :=
  ⟨by decide, by decide,
   claim_C1_gap_rejected c1_book 100 1 true 8 0 (by decide) (by decide)⟩

/-! ### C4 -/

/-- The snapshot of the C4 end-to-end scenario. -/
def c4_snap : OrderbookSnapshot :=
  { symbol := "BTCUSDT"
    bids := [{ price := 100, quantity := 2 }]
    asks := [{ price := 100.10, quantity := 1.5 }]
    seq_id := 10
    timestamp_ns := 0 }

/-- The book of the C4 end-to-end scenario: snapshot at sequence 10, bid
delta `(100.05, 1.0)` at 11, ask delta `(100.10, 0)` at 12. -/
def c4_book : L2Orderbook :=
  let b1 := (L2Orderbook.new "BTCUSDT").apply_snapshot c4_snap
  let b2 := (b1.apply_delta 100.05 1 true 11 0).2
  (b2.apply_delta 100.10 0 false 12 0).2

lemma c4_b1 : (L2Orderbook.new "BTCUSDT").apply_snapshot c4_snap =
    { symbol := "BTCUSDT", bids := [(100000000, 2)], asks := [(100100000, 1.5)],
      last_seq_id := 10, last_update_ns := 0, total_updates := 1, gaps_detected := 0 } := by
  simp [L2Orderbook.apply_snapshot, L2Orderbook.new, c4_snap, bookInsert, ptk_100, ptk_10010]

lemma c4_eq : c4_book =
    { symbol := "BTCUSDT", bids := [(100000000, 2), (100050000, 1)], asks := [],
      last_seq_id := 12, last_update_ns := 0, total_updates := 3, gaps_detected := 0 } := by
  rw [c4_book, c4_b1]
  simp [L2Orderbook.apply_delta, ptk_10005, ptk_10010, bookInsert, bookErase]

/-- C4: In the end-to-end scenario (snapshot bids `[(100.00, 2.0)]`,
asks `[(100.10, 1.5)]` at sequence 10; bid delta `(100.05, 1.0)` at 11;
ask delta `(100.10, 0)` at 12), the final book answers
`best_bid = some 100.05`, `best_ask = none` and `mid_price = none`,
prices being quantized by multiplication by 1e6 and truncation. -/
theorem claim_C4_scenario :
    c4_book.best_bid = some 100.05 ∧ c4_book.best_ask = none ∧
    c4_book.mid_price = none := by
  rw [c4_eq]
  refine ⟨?_, ?_, ?_⟩
  · simp [L2Orderbook.best_bid, L2Orderbook.key_to_price]
    norm_num
  · simp [L2Orderbook.best_ask]
  · simp [L2Orderbook.mid_price, L2Orderbook.best_ask]

/-! ### C5 -/

/-- C5: When `seq_id = last_seq_id + 1` or the book was never seeded
(`last_seq_id = 0`), `apply_delta` returns `true`; a quantity ≤ 0 removes
the quantized level from the chosen side (a no-op on the levels when the
level is absent) while a positive quantity inserts or overwrites it; the
other side is untouched, `last_seq_id` becomes `seq_id` and
`total_updates` increments by 1. -/
theorem claim_C5_delta_success (b : L2Orderbook) (price qty : ℚ) (is_bid : Bool)
    (seq_id : ℕ) (now_ns : ℤ)
    (h : b.last_seq_id = 0 ∨ seq_id = b.last_seq_id + 1) :
    (b.apply_delta price qty is_bid seq_id now_ns).1 = true ∧
    (b.apply_delta price qty is_bid seq_id now_ns).2.last_seq_id = seq_id ∧
    (b.apply_delta price qty is_bid seq_id now_ns).2.total_updates = b.total_updates + 1 ∧
    (is_bid = true →
      (b.apply_delta price qty is_bid seq_id now_ns).2.asks = b.asks ∧
      (b.apply_delta price qty is_bid seq_id now_ns).2.bids =
        (if qty ≤ 0 then bookErase (L2Orderbook.price_to_key price) b.bids
         else bookInsert (L2Orderbook.price_to_key price) qty b.bids)) ∧
    (is_bid = false →
      (b.apply_delta price qty is_bid seq_id now_ns).2.bids = b.bids ∧
      (b.apply_delta price qty is_bid seq_id now_ns).2.asks =
        (if qty ≤ 0 then bookErase (L2Orderbook.price_to_key price) b.asks
         else bookInsert (L2Orderbook.price_to_key price) qty b.asks)) ∧
    (qty ≤ 0 →
      L2Orderbook.price_to_key price ∉
        (if is_bid then b.bids else b.asks).map Prod.fst →
      (b.apply_delta price qty is_bid seq_id now_ns).2.bids = b.bids ∧
      (b.apply_delta price qty is_bid seq_id now_ns).2.asks = b.asks) := by
  rw [apply_delta_accept b price qty is_bid seq_id now_ns h]
  refine ⟨rfl, rfl, rfl, ?_, ?_, ?_⟩
  · intro hb; subst hb; exact ⟨by simp, by simp⟩
  · intro hb; subst hb; exact ⟨by simp, by simp⟩
  · intro hq hmem
    cases is_bid with
    | false =>
      simp only [Bool.false_eq_true, if_false] at hmem ⊢
      exact ⟨by simp, by simp [if_pos hq, bookErase_not_mem _ _ hmem]⟩
    | true =>
      simp only [if_true] at hmem ⊢
      exact ⟨by simp [if_pos hq, bookErase_not_mem _ _ hmem], by simp⟩

/-- C5 witness: On the never-seeded book, a bid delta `(100, 1)` at
sequence 7 is accepted and inserts the quantized level. -/
theorem claim_C5_delta_success_witness :
    ((L2Orderbook.new "X").last_seq_id = 0 ∨ (7:ℕ) = (L2Orderbook.new "X").last_seq_id + 1) ∧
    (((L2Orderbook.new "X").apply_delta 100 1 true 7 0).1 = true ∧
     ((L2Orderbook.new "X").apply_delta 100 1 true 7 0).2.last_seq_id = 7 ∧
     ((L2Orderbook.new "X").apply_delta 100 1 true 7 0).2.total_updates =
       (L2Orderbook.new "X").total_updates + 1 ∧
     (true = true →
       ((L2Orderbook.new "X").apply_delta 100 1 true 7 0).2.asks = (L2Orderbook.new "X").asks ∧
       ((L2Orderbook.new "X").apply_delta 100 1 true 7 0).2.bids =
         (if (1:ℚ) ≤ 0 then bookErase (L2Orderbook.price_to_key 100) (L2Orderbook.new "X").bids
          else bookInsert (L2Orderbook.price_to_key 100) 1 (L2Orderbook.new "X").bids)) ∧
     (true = false →
       ((L2Orderbook.new "X").apply_delta 100 1 true 7 0).2.bids = (L2Orderbook.new "X").bids ∧
       ((L2Orderbook.new "X").apply_delta 100 1 true 7 0).2.asks =
         (if (1:ℚ) ≤ 0 then bookErase (L2Orderbook.price_to_key 100) (L2Orderbook.new "X").asks
          else bookInsert (L2Orderbook.price_to_key 100) 1 (L2Orderbook.new "X").asks)) ∧
     ((1:ℚ) ≤ 0 →
       L2Orderbook.price_to_key 100 ∉
         (if true then (L2Orderbook.new "X").bids else (L2Orderbook.new "X").asks).map Prod.fst →
       ((L2Orderbook.new "X").apply_delta 100 1 true 7 0).2.bids = (L2Orderbook.new "X").bids ∧
       ((L2Orderbook.new "X").apply_delta 100 1 true 7 0).2.asks = (L2Orderbook.new "X").asks)) :=
  ⟨Or.inl rfl, claim_C5_delta_success (L2Orderbook.new "X") 100 1 true 7 0 (Or.inl rfl)⟩

/-! ### C10 -/

/-- A snapshot carrying a bid level with quantity 0. -/
def c10_snap : OrderbookSnapshot :=
  { symbol := "X", bids := [{ price := 100, quantity := 0 }], asks := [],
    seq_id := 1, timestamp_ns := 0 }

/-- The book after applying `c10_snap` to a fresh book. -/
def c10_book : L2Orderbook := (L2Orderbook.new "X").apply_snapshot c10_snap

lemma c10_eq : c10_book =
    { symbol := "X", bids := [(100000000, 0)], asks := [],
      last_seq_id := 1, last_update_ns := 0, total_updates := 1, gaps_detected := 0 } := by
  simp [c10_book, c10_snap, L2Orderbook.apply_snapshot, L2Orderbook.new, bookInsert, ptk_100]

/-- C10: `apply_snapshot` inserts levels verbatim, without filtering
non-positive quantities: the quantity-0 bid level of `c10_snap` is stored
as a present level, reported by `best_bid` and by `depth` with quantity 0
— whereas the same `(100, 0)` message sent through `apply_delta` removes
the level. -/
theorem claim_C10_snapshot_keeps_nonpositive :
    c10_book.bids = [(100000000, 0)] ∧
    c10_book.best_bid = some 100 ∧
    c10_book.depth 5 = ([{ price := 100, quantity := 0 }], []) ∧
    ((c10_book.apply_delta 100 0 true 2 0).2).bids = [] := by
  rw [c10_eq]
  refine ⟨rfl, ?_, ?_, ?_⟩
  · simp [L2Orderbook.best_bid, L2Orderbook.key_to_price]
    norm_num
  · simp [L2Orderbook.depth, L2Orderbook.key_to_price]
    norm_num
  · simp [L2Orderbook.apply_delta, ptk_100, bookErase]

/-! ### C8 -/

lemma percentile_sorted_char (samples : List ℤ) (pct : ℕ) (h : samples ≠ []) :
    ∃ sorted : List ℤ, sorted.Perm samples ∧ sorted.Sorted (· ≤ ·) ∧
      percentile samples pct =
        sorted.getD (min (pct * samples.length / 100) (samples.length - 1)) 0 := by
  refine ⟨List.insertionSort (· ≤ ·) samples, List.perm_insertionSort _ _,
    List.sorted_insertionSort _ _, ?_⟩
  rw [percentile, if_neg (by simpa using h)]
  simp only [List.length_insertionSort]

lemma percentile_p50_le_p99 (samples : List ℤ) (h : samples ≠ []) :
    percentile samples 50 ≤ percentile samples 99 := by
  rw [percentile, percentile, if_neg (by simpa using h), if_neg (by simpa using h)]
  simp only []
  have hlen : (List.insertionSort (· ≤ ·) samples).length = samples.length :=
    List.length_insertionSort _ _
  have hpos : 0 < (List.insertionSort (· ≤ ·) samples).length := by
    rw [hlen]; exact List.length_pos.mpr h
  have hsorted : (List.insertionSort (· ≤ ·) samples).Sorted (· ≤ ·) :=
    List.sorted_insertionSort _ _
  set n := (List.insertionSort (· ≤ ·) samples).length with hn
  have hle : min (50 * n / 100) (n - 1) ≤ min (99 * n / 100) (n - 1) := by
    apply min_le_min _ le_rfl
    exact Nat.div_le_div_right (Nat.mul_le_mul_right n (by norm_num))
  have h99 : min (99 * n / 100) (n - 1) < n := by omega
  have h50 : min (50 * n / 100) (n - 1) < n := by omega
  rw [List.getD_eq_getElem _ _ h50, List.getD_eq_getElem _ _ h99]
  have := hsorted.rel_get_of_le (a := ⟨_, h50⟩) (b := ⟨_, h99⟩) hle
  simpa [List.get_eq_getElem] using this

/-- C8: `percentile` on a non-empty list picks, from a sorted
permutation of the list, the element at index
`floor (p * n / 100)` clamped to `n - 1`; on the empty list it returns
0; and on every non-empty list the 50th percentile is at most the 99th. -/
theorem claim_C8_percentile (samples : List ℤ) (pct : ℕ) (h : samples ≠ []) :
    percentile [] pct = 0 ∧
    (∃ sorted : List ℤ, sorted.Perm samples ∧ sorted.Sorted (· ≤ ·) ∧
      percentile samples pct =
        sorted.getD (min (pct * samples.length / 100) (samples.length - 1)) 0) ∧
    percentile samples 50 ≤ percentile samples 99 :=
  ⟨rfl, percentile_sorted_char samples pct h, percentile_p50_le_p99 samples h⟩

/-- C8 witness: The claim instantiated on the list `[3, 1, 2]` with
`pct = 99`. -/
theorem claim_C8_percentile_witness :
    ([3, 1, 2] : List ℤ) ≠ [] ∧
    (percentile [] 99 = 0 ∧
     (∃ sorted : List ℤ, sorted.Perm ([3, 1, 2] : List ℤ) ∧ sorted.Sorted (· ≤ ·) ∧
       percentile [3, 1, 2] 99 =
         sorted.getD (min (99 * ([3, 1, 2] : List ℤ).length / 100)
           (([3, 1, 2] : List ℤ).length - 1)) 0) ∧
     percentile [3, 1, 2] 50 ≤ percentile [3, 1, 2] 99) :=
  ⟨by decide, claim_C8_percentile [3, 1, 2] 99 (by decide)⟩

lemma submit_order_dup (e : ExecutionEngine) (req : OrderRequest)
    (uuid : String) (now_ns latency_ns : ℤ)
    (h : req.idempotency_key ∈ e.submitted_keys) :
    e.submit_order req uuid now_ns latency_ns =
      (Except.error ("DUPLICATE_ORDER: key=" ++ req.idempotency_key),
       { e with total_duplicates := e.total_duplicates + 1 }) := by
  rw [ExecutionEngine.submit_order, if_pos h]

lemma submit_order_fresh (e : ExecutionEngine) (req : OrderRequest)
    (uuid : String) (now_ns latency_ns : ℤ)
    (h1 : req.idempotency_key ∉ e.submitted_keys)
    (h2 : (insert req.idempotency_key e.submitted_keys).card ≤ 100000) :
    e.submit_order req uuid now_ns latency_ns =
      (Except.ok
        { client_id := req.client_id, exchange_order_id := "EX-" ++ uuid,
          status := "SUBMITTED", timestamp_ns := now_ns, latency_ns := latency_ns },
       { e with
         submitted_keys := insert req.idempotency_key e.submitted_keys
         total_submitted := e.total_submitted + 1 }) := by
  rw [ExecutionEngine.submit_order, if_neg h1]
  simp only []
  rw [if_neg (by omega)]

lemma submit_order_overflow (e : ExecutionEngine) (req : OrderRequest)
    (uuid : String) (now_ns latency_ns : ℤ)
    (h1 : req.idempotency_key ∉ e.submitted_keys)
    (h2 : 100000 < (insert req.idempotency_key e.submitted_keys).card) :
    e.submit_order req uuid now_ns latency_ns =
      (Except.ok
        { client_id := req.client_id, exchange_order_id := "EX-" ++ uuid,
          status := "SUBMITTED", timestamp_ns := now_ns, latency_ns := latency_ns },
       { e with
         submitted_keys := (∅ : Finset String)
         total_submitted := e.total_submitted + 1 }) := by
  rw [ExecutionEngine.submit_order, if_neg h1]
  simp only []
  rw [if_pos (by omega)]

lemma runSubmits_distinct (keys : List String) : ∀ e : ExecutionEngine,
    keys.Nodup → (∀ k ∈ keys, k ∉ e.submitted_keys) →
    e.submitted_keys.card + keys.length ≤ 100000 →
    (runSubmits e keys).submitted_keys = e.submitted_keys ∪ keys.toFinset := by
  induction keys with
  | nil => intro e _ _ _; simp [runSubmits]
  | cons k ks ih =>
    intro e hnd hfresh hcard
    have hk : (mkReq k).idempotency_key ∉ e.submitted_keys := hfresh k (by simp)
    have hci : (insert (mkReq k).idempotency_key e.submitted_keys).card ≤ 100000 := by
      have := Finset.card_insert_le (mkReq k).idempotency_key e.submitted_keys
      have hl : (k :: ks).length = ks.length + 1 := rfl
      omega
    have step : runSubmits e (k :: ks) =
        runSubmits { e with
          submitted_keys := insert k e.submitted_keys
          total_submitted := e.total_submitted + 1 } ks := by
      rw [runSubmits, List.foldl_cons, submit_order_fresh e (mkReq k) "u" 0 0 hk hci]
      rfl
    rw [step, ih]
    · show insert k e.submitted_keys ∪ ks.toFinset = e.submitted_keys ∪ (k :: ks).toFinset
      rw [List.toFinset_cons, Finset.union_insert, Finset.insert_union]
    · exact hnd.of_cons
    · intro k' hk'
      simp only [Finset.mem_insert, not_or]
      refine ⟨?_, hfresh k' (by simp [hk'])⟩
      intro heq
      exact (List.nodup_cons.mp hnd).1 (heq ▸ hk')
    · have : (insert k e.submitted_keys).card ≤ e.submitted_keys.card + 1 :=
        Finset.card_insert_le _ _
      have hl : (k :: ks).length = ks.length + 1 := rfl
      simp only []
      omega

lemma keyN_injective : Function.Injective keyN := by
  intro a b h
  have hd : List.replicate a 'a' = List.replicate b 'a' := congrArg String.data h
  have := congrArg List.length hd
  simpa using this

def capKeys : List String := (List.range 100000).map keyN

lemma capKeys_nodup : capKeys.Nodup := (List.nodup_range 100000).map keyN_injective

lemma capKeys_length : capKeys.length = 100000 := by simp [capKeys]

lemma keyN_100000_not_mem : keyN 100000 ∉ capKeys.toFinset := by
  simp only [capKeys, List.mem_toFinset, List.mem_map, List.mem_range]
  rintro ⟨i, hi, hEq⟩
  exact absurd (keyN_injective hEq) (by omega)

def e_cap : ExecutionEngine := runSubmits ExecutionEngine.new capKeys

lemma e_cap_keys : e_cap.submitted_keys = capKeys.toFinset := by
  have hc : ExecutionEngine.new.submitted_keys.card = 0 := rfl
  have h := runSubmits_distinct capKeys ExecutionEngine.new capKeys_nodup
    (fun k _ => Finset.not_mem_empty k)
    (by rw [hc, capKeys_length])
  rw [show e_cap = runSubmits ExecutionEngine.new capKeys from rfl, h]
  exact Finset.empty_union _

lemma e_cap_card : e_cap.submitted_keys.card = 100000 := by
  rw [e_cap_keys, List.toFinset_card_of_nodup capKeys_nodup, capKeys_length]

lemma e_cap_first_resubmit :
    e_cap.submit_order (mkReq (keyN 100000)) "u1" 0 0 =
      (Except.ok
        { client_id := (mkReq (keyN 100000)).client_id, exchange_order_id := "EX-" ++ "u1",
          status := "SUBMITTED", timestamp_ns := 0, latency_ns := 0 },
       { e_cap with
         submitted_keys := (∅ : Finset String)
         total_submitted := e_cap.total_submitted + 1 }) := by
  have hnm : (mkReq (keyN 100000)).idempotency_key ∉ e_cap.submitted_keys := by
    rw [e_cap_keys]; exact keyN_100000_not_mem
  apply submit_order_overflow e_cap (mkReq (keyN 100000)) "u1" 0 0 hnm
  rw [Finset.card_insert_of_not_mem hnm, e_cap_card]
  omega

theorem claim_C9_reset_forgets_trigger_key :
    (∃ a, (e_cap.submit_order (mkReq (keyN 100000)) "u1" 0 0).1 = Except.ok a) ∧
    (e_cap.submit_order (mkReq (keyN 100000)) "u1" 0 0).2.submitted_keys = ∅ ∧
    (∃ a, ((e_cap.submit_order (mkReq (keyN 100000)) "u1" 0 0).2.submit_order
        (mkReq (keyN 100000)) "u2" 0 0).1 = Except.ok a) := by
  rw [e_cap_first_resubmit]
  refine ⟨⟨_, rfl⟩, rfl, ?_⟩
  rw [submit_order_fresh _ (mkReq (keyN 100000)) "u2" 0 0
    (Finset.not_mem_empty _) (by simp)]
  exact ⟨_, rfl⟩

def c2_req1 : OrderRequest :=
  { client_id := "A", symbol := "BTCUSDT", side := "BUY", quantity := 1, price := 100,
    order_type := "LIMIT", idempotency_key := keyN 100000, timestamp_ns := 1 }

def c2_req2 : OrderRequest :=
  { client_id := "B", symbol := "ETHUSDT", side := "SELL", quantity := 2, price := 50,
    order_type := "MARKET", idempotency_key := keyN 100000, timestamp_ns := 2 }

theorem claim_C2_counterexample :
    (∃ a, (e_cap.submit_order c2_req1 "u1" 0 0).1 = Except.ok a) ∧
    (∃ a, ((e_cap.submit_order c2_req1 "u1" 0 0).2.submit_order c2_req2 "u2" 1 1).1 =
      Except.ok a) := by
  have hnm : c2_req1.idempotency_key ∉ e_cap.submitted_keys := by
    rw [e_cap_keys]; exact keyN_100000_not_mem
  have h1 : e_cap.submit_order c2_req1 "u1" 0 0 =
      (Except.ok
        { client_id := c2_req1.client_id, exchange_order_id := "EX-" ++ "u1",
          status := "SUBMITTED", timestamp_ns := 0, latency_ns := 0 },
       { e_cap with
         submitted_keys := (∅ : Finset String)
         total_submitted := e_cap.total_submitted + 1 }) := by
    apply submit_order_overflow e_cap c2_req1 "u1" 0 0 hnm
    rw [Finset.card_insert_of_not_mem hnm, e_cap_card]
    omega
  rw [h1]
  refine ⟨⟨_, rfl⟩, ?_⟩
  rw [submit_order_fresh _ c2_req2 "u2" 1 1 (Finset.not_mem_empty _) (by simp)]
  exact ⟨_, rfl⟩

theorem claim_C2_amended (e : ExecutionEngine) (r1 r2 : OrderRequest)
    (u1 u2 : String) (t1 t2 l1 l2 : ℤ)
    (hkey : r2.idempotency_key = r1.idempotency_key)
    (habsent : r1.idempotency_key ∉ e.submitted_keys)
    (hcap : e.submitted_keys.card < 100000) :
    (e.submit_order r1 u1 t1 l1).1 =
      Except.ok
        { client_id := r1.client_id, exchange_order_id := "EX-" ++ u1,
          status := "SUBMITTED", timestamp_ns := t1, latency_ns := l1 } ∧
    ((e.submit_order r1 u1 t1 l1).2.submit_order r2 u2 t2 l2).1 =
      Except.error ("DUPLICATE_ORDER: key=" ++ r2.idempotency_key) ∧
    ((e.submit_order r1 u1 t1 l1).2.submit_order r2 u2 t2 l2).2.submitted_keys =
      (e.submit_order r1 u1 t1 l1).2.submitted_keys ∧
    ((e.submit_order r1 u1 t1 l1).2.submit_order r2 u2 t2 l2).2.total_submitted =
      (e.submit_order r1 u1 t1 l1).2.total_submitted ∧
    ((e.submit_order r1 u1 t1 l1).2.submit_order r2 u2 t2 l2).2.total_fills =
      (e.submit_order r1 u1 t1 l1).2.total_fills ∧
    ((e.submit_order r1 u1 t1 l1).2.submit_order r2 u2 t2 l2).2.total_duplicates =
      (e.submit_order r1 u1 t1 l1).2.total_duplicates + 1 := by
  have hins : (insert r1.idempotency_key e.submitted_keys).card ≤ 100000 := by
    have := Finset.card_insert_le r1.idempotency_key e.submitted_keys
    omega
  rw [submit_order_fresh e r1 u1 t1 l1 habsent hins]
  have hmem : r2.idempotency_key ∈
      (insert r1.idempotency_key e.submitted_keys : Finset String) := by
    rw [hkey]; exact Finset.mem_insert_self _ _
  rw [submit_order_dup _ r2 u2 t2 l2 hmem]
  exact ⟨rfl, rfl, rfl, rfl, rfl, rfl⟩

def c2w_req1 : OrderRequest :=
  { client_id := "A", symbol := "BTCUSDT", side := "BUY", quantity := 1, price := 100,
    order_type := "LIMIT", idempotency_key := "K1", timestamp_ns := 1 }

def c2w_req2 : OrderRequest :=
  { client_id := "B", symbol := "ETHUSDT", side := "SELL", quantity := 2, price := 50,
    order_type := "MARKET", idempotency_key := "K1", timestamp_ns := 2 }

theorem claim_C2_amended_witness :
    c2w_req2.idempotency_key = c2w_req1.idempotency_key ∧
    c2w_req1.idempotency_key ∉ ExecutionEngine.new.submitted_keys ∧
    ExecutionEngine.new.submitted_keys.card < 100000 ∧
    ((ExecutionEngine.new.submit_order c2w_req1 "u1" 0 0).1 =
      Except.ok
        { client_id := c2w_req1.client_id, exchange_order_id := "EX-" ++ "u1",
          status := "SUBMITTED", timestamp_ns := 0, latency_ns := 0 } ∧
     ((ExecutionEngine.new.submit_order c2w_req1 "u1" 0 0).2.submit_order c2w_req2 "u2" 0 0).1 =
       Except.error ("DUPLICATE_ORDER: key=" ++ c2w_req2.idempotency_key) ∧
     ((ExecutionEngine.new.submit_order c2w_req1 "u1" 0 0).2.submit_order c2w_req2 "u2" 0 0).2.submitted_keys =
       (ExecutionEngine.new.submit_order c2w_req1 "u1" 0 0).2.submitted_keys ∧
     ((ExecutionEngine.new.submit_order c2w_req1 "u1" 0 0).2.submit_order c2w_req2 "u2" 0 0).2.total_submitted =
       (ExecutionEngine.new.submit_order c2w_req1 "u1" 0 0).2.total_submitted ∧
     ((ExecutionEngine.new.submit_order c2w_req1 "u1" 0 0).2.submit_order c2w_req2 "u2" 0 0).2.total_fills =
       (ExecutionEngine.new.submit_order c2w_req1 "u1" 0 0).2.total_fills ∧
     ((ExecutionEngine.new.submit_order c2w_req1 "u1" 0 0).2.submit_order c2w_req2 "u2" 0 0).2.total_duplicates =
       (ExecutionEngine.new.submit_order c2w_req1 "u1" 0 0).2.total_duplicates + 1) :=
  ⟨rfl, by decide, by decide,
   claim_C2_amended ExecutionEngine.new c2w_req1 c2w_req2 "u1" "u2" 0 0 0 0 rfl
     (by decide) (by decide)⟩

theorem claim_C7_bounded_set (e : ExecutionEngine) (req : OrderRequest)
    (uuid : String) (now_ns latency_ns : ℤ)
    (h : e.submitted_keys.card ≤ 100000) :
    (e.submit_order req uuid now_ns latency_ns).2.submitted_keys.card ≤ 100000 ∧
    (req.idempotency_key ∉ e.submitted_keys →
      100000 < (insert req.idempotency_key e.submitted_keys).card →
      (e.submit_order req uuid now_ns latency_ns).2.submitted_keys = ∅) := by
  by_cases hmem : req.idempotency_key ∈ e.submitted_keys
  · rw [submit_order_dup e req uuid now_ns latency_ns hmem]
    exact ⟨h, fun habs _ => absurd hmem habs⟩
  · by_cases hover : 100000 < (insert req.idempotency_key e.submitted_keys).card
    · rw [submit_order_overflow e req uuid now_ns latency_ns hmem hover]
      exact ⟨by simp, fun _ _ => rfl⟩
    · push_neg at hover
      rw [submit_order_fresh e req uuid now_ns latency_ns hmem hover]
      exact ⟨hover, fun _ hc => absurd hc (by omega)⟩

theorem claim_C7_bounded_set_witness :
    ExecutionEngine.new.submitted_keys.card ≤ 100000 ∧
    ((ExecutionEngine.new.submit_order (mkReq "K") "u" 0 0).2.submitted_keys.card ≤ 100000 ∧
     ((mkReq "K").idempotency_key ∉ ExecutionEngine.new.submitted_keys →
       100000 < (insert (mkReq "K").idempotency_key ExecutionEngine.new.submitted_keys).card →
       (ExecutionEngine.new.submit_order (mkReq "K") "u" 0 0).2.submitted_keys = ∅)) :=
  ⟨by decide, claim_C7_bounded_set ExecutionEngine.new (mkReq "K") "u" 0 0 (by decide)⟩

lemma applyLevelDirect_eq (b : L2Orderbook) (d : DeltaMsg)
    (h : b.last_seq_id = 0 ∨ d.seq_id = b.last_seq_id + 1) :
    ((b.apply_delta d.price d.qty d.is_bid d.seq_id d.now_ns).2.bids,
     (b.apply_delta d.price d.qty d.is_bid d.seq_id d.now_ns).2.asks) =
      applyLevelDirect (b.bids, b.asks) d := by
  rw [apply_delta_accept b d.price d.qty d.is_bid d.seq_id d.now_ns h]
  cases hb : d.is_bid <;> simp [applyLevelDirect, hb]

lemma runDeltas_refines (ds : List DeltaMsg) : ∀ b : L2Orderbook,
    List.Chain' (fun a d => d.seq_id = a.seq_id + 1) ds →
    (∀ d ∈ ds.head?, b.last_seq_id = 0 ∨ d.seq_id = b.last_seq_id + 1) →
    ((runDeltas b ds).bids, (runDeltas b ds).asks) =
      ds.foldl applyLevelDirect (b.bids, b.asks) := by
  induction ds with
  | nil => intro b _ _; simp [runDeltas]
  | cons d ds ih =>
    intro b hchain hhead
    have hacc : b.last_seq_id = 0 ∨ d.seq_id = b.last_seq_id + 1 := by
      apply hhead d; simp
    have hstep := apply_delta_accept b d.price d.qty d.is_bid d.seq_id d.now_ns hacc
    have hrun : runDeltas b (d :: ds) =
        runDeltas (b.apply_delta d.price d.qty d.is_bid d.seq_id d.now_ns).2 ds := by
      rw [runDeltas, List.foldl_cons]; rfl
    rw [hrun, List.foldl_cons, ← applyLevelDirect_eq b d hacc]
    apply ih
    · exact hchain.tail
    · intro d' hd'
      right
      have hlast : (b.apply_delta d.price d.qty d.is_bid d.seq_id d.now_ns).2.last_seq_id =
          d.seq_id := by rw [hstep]
      rw [hlast]
      cases ds with
      | nil => simp at hd'
      | cons d₂ ds₂ =>
        simp only [List.head?_cons, Option.mem_def, Option.some.injEq] at hd'
        subst hd'
        exact (List.chain'_cons.mp hchain).1

/-- C6: A gapless run of deltas (each sequence id the successor of
the previous one) applied to a fresh book through `apply_delta` yields
exactly the bid/ask maps obtained by folding the bare per-level
insert/remove operation over the empty base state in the same order. -/
theorem claim_C6_refinement (s : String) (ds : List DeltaMsg)
    (h : List.Chain' (fun a d => d.seq_id = a.seq_id + 1) ds) :
    ((runDeltas (L2Orderbook.new s) ds).bids, (runDeltas (L2Orderbook.new s) ds).asks) =
      ds.foldl applyLevelDirect ([], []) := by
  have := runDeltas_refines ds (L2Orderbook.new s) h
    (fun d _ => Or.inl rfl)
  simpa [L2Orderbook.new] using this

/-- The two-delta run used as the C6 witness. -/
def c6_ds : List DeltaMsg :=
  [{ price := 100, qty := 1, is_bid := true, seq_id := 1, now_ns := 0 },
   { price := 101, qty := 2, is_bid := false, seq_id := 2, now_ns := 0 }]

/-- C6 witness: The refinement instantiated on a concrete gapless
two-delta run. -/
theorem claim_C6_refinement_witness :
    List.Chain' (fun a d => d.seq_id = a.seq_id + 1) c6_ds ∧
    ((runDeltas (L2Orderbook.new "X") c6_ds).bids,
     (runDeltas (L2Orderbook.new "X") c6_ds).asks) =
      c6_ds.foldl applyLevelDirect ([], []) :=
  ⟨List.chain'_cons.mpr ⟨rfl, List.chain'_singleton _⟩,
   claim_C6_refinement "X" c6_ds (List.chain'_cons.mpr ⟨rfl, List.chain'_singleton _⟩)⟩

/-! ### C3 -/

/-- A single snapshot whose bid side is above its ask side. -/
def c3_ops : List BookOp :=
  [BookOp.snap
    { symbol := "X", bids := [{ price := 101, quantity := 1 }],
      asks := [{ price := 100, quantity := 1 }], seq_id := 1, timestamp_ns := 0 }]

/-- The crossed book the engine accepts without complaint. -/
def c3_book : L2Orderbook := runOps (L2Orderbook.new "X") c3_ops

lemma c3_book_eq : c3_book =
    { symbol := "X", bids := [(101000000, 1)], asks := [(100000000, 1)],
      last_seq_id := 1, last_update_ns := 0, total_updates := 1, gaps_detected := 0 } := by
  simp [c3_book, c3_ops, runOps, L2Orderbook.apply_snapshot, L2Orderbook.new,
    bookInsert, ptk_101, ptk_100]

theorem claim_C3_counterexample :
    c3_book.best_bid = some 101 ∧ c3_book.best_ask = some 100 ∧
    ¬ (∀ bid ask : ℚ, c3_book.best_bid = some bid →
        c3_book.best_ask = some ask → bid < ask) := by
  have h1 : c3_book.best_bid = some 101 := by
    rw [c3_book_eq]
    simp [L2Orderbook.best_bid, L2Orderbook.key_to_price]
    norm_num
  have h2 : c3_book.best_ask = some 100 := by
    rw [c3_book_eq]
    simp [L2Orderbook.best_ask, L2Orderbook.key_to_price]
    norm_num
  refine ⟨h1, h2, fun hall => ?_⟩
  have := hall 101 100 h1 h2
  norm_num at this

lemma bookInsert_keys_subset (k : ℤ) (q : ℚ) (b : List (ℤ × ℚ)) :
    ∀ k' ∈ (bookInsert k q b).map Prod.fst, k' = k ∨ k' ∈ b.map Prod.fst := by
  induction b with
  | nil => simp [bookInsert]
  | cons hd tl ih =>
    intro k' hk'
    rw [bookInsert] at hk'
    by_cases h1 : k < hd.1
    · rw [if_pos h1] at hk'
      simp only [List.map_cons, List.mem_cons] at hk'
      rcases hk' with h | h | h
      · exact Or.inl h
      · exact Or.inr (by simp [h])
      · exact Or.inr (by simp [h])
    · rw [if_neg h1] at hk'
      by_cases h2 : k = hd.1
      · rw [if_pos h2] at hk'
        simp only [List.map_cons, List.mem_cons] at hk'
        rcases hk' with h | h
        · exact Or.inl h
        · exact Or.inr (by simp [h])
      · rw [if_neg h2] at hk'
        simp only [List.map_cons, List.mem_cons] at hk'
        rcases hk' with h | h
        · exact Or.inr (by simp [h])
        · rcases ih k' h with h' | h'
          · exact Or.inl h'
          · exact Or.inr (by simp [h'])

lemma bookErase_keys_subset (k : ℤ) (b : List (ℤ × ℚ)) :
    ∀ k' ∈ (bookErase k b).map Prod.fst, k' ∈ b.map Prod.fst := by
  induction b with
  | nil => simp [bookErase]
  | cons hd tl ih =>
    intro k' hk'
    rw [bookErase] at hk'
    by_cases h1 : k = hd.1
    · rw [if_pos h1] at hk'
      simp only [List.map_cons, List.mem_cons]
      exact Or.inr hk'
    · rw [if_neg h1] at hk'
      simp only [List.map_cons, List.mem_cons] at hk' ⊢
      rcases hk' with h | h
      · exact Or.inl h
      · exact Or.inr (ih k' h)

lemma foldl_insert_keys (levels : List OrderbookLevel) : ∀ acc : List (ℤ × ℚ),
    ∀ k ∈ ((levels.foldl
        (fun b level => bookInsert (L2Orderbook.price_to_key level.price) level.quantity b)
        acc).map Prod.fst),
      k ∈ levels.map (fun level => L2Orderbook.price_to_key level.price) ∨
        k ∈ acc.map Prod.fst := by
  induction levels with
  | nil => intro acc k hk; exact Or.inr hk
  | cons l ls ih =>
    intro acc k hk
    rw [List.foldl_cons] at hk
    rcases ih _ k hk with h | h
    · exact Or.inl (by simp [h])
    · rcases bookInsert_keys_subset _ _ _ k h with h' | h'
      · exact Or.inl (by simp [h'])
      · exact Or.inr h'

lemma apply_snapshot_keys (b : L2Orderbook) (s : OrderbookSnapshot) :
    (∀ k ∈ (b.apply_snapshot s).bids.map Prod.fst,
       k ∈ s.bids.map (fun level => L2Orderbook.price_to_key level.price)) ∧
    (∀ k ∈ (b.apply_snapshot s).asks.map Prod.fst,
       k ∈ s.asks.map (fun level => L2Orderbook.price_to_key level.price)) := by
  constructor
  · intro k hk
    rcases foldl_insert_keys s.bids [] k hk with h | h
    · exact h
    · simp at h
  · intro k hk
    rcases foldl_insert_keys s.asks [] k hk with h | h
    · exact h
    · simp at h

lemma apply_delta_keys (b : L2Orderbook) (price qty : ℚ) (is_bid : Bool)
    (seq_id : ℕ) (now_ns : ℤ) :
    (∀ k ∈ (b.apply_delta price qty is_bid seq_id now_ns).2.bids.map Prod.fst,
       (is_bid = true ∧ k = L2Orderbook.price_to_key price) ∨ k ∈ b.bids.map Prod.fst) ∧
    (∀ k ∈ (b.apply_delta price qty is_bid seq_id now_ns).2.asks.map Prod.fst,
       (is_bid = false ∧ k = L2Orderbook.price_to_key price) ∨ k ∈ b.asks.map Prod.fst) := by
  rw [L2Orderbook.apply_delta]
  by_cases hgap : b.last_seq_id > 0 ∧ seq_id ≠ b.last_seq_id + 1
  · rw [if_pos hgap]
    exact ⟨fun k hk => Or.inr hk, fun k hk => Or.inr hk⟩
  · rw [if_neg hgap]
    cases is_bid with
    | true =>
      refine ⟨fun k hk => ?_, fun k hk => Or.inr (by simpa using hk)⟩
      simp only [if_true] at hk
      by_cases hq : qty ≤ 0
      · rw [if_pos hq] at hk
        exact Or.inr (bookErase_keys_subset _ _ k (by simpa using hk))
      · rw [if_neg hq] at hk
        rcases bookInsert_keys_subset _ _ _ k (by simpa using hk) with h | h
        · exact Or.inl ⟨rfl, h⟩
        · exact Or.inr h
    | false =>
      refine ⟨fun k hk => Or.inr (by simpa using hk), fun k hk => ?_⟩
      simp only [Bool.false_eq_true, if_false] at hk
      by_cases hq : qty ≤ 0
      · rw [if_pos hq] at hk
        exact Or.inr (bookErase_keys_subset _ _ k (by simpa using hk))
      · rw [if_neg hq] at hk
        rcases bookInsert_keys_subset _ _ _ k (by simpa using hk) with h | h
        · exact Or.inl ⟨rfl, h⟩
        · exact Or.inr h

lemma runOps_keys (ops : List BookOp) : ∀ (b : L2Orderbook) (P Q : ℤ → Prop),
    (∀ k ∈ b.bids.map Prod.fst, P k) →
    (∀ k ∈ b.asks.map Prod.fst, Q k) →
    (∀ op ∈ ops, ∀ p ∈ opBidPrices op, P (L2Orderbook.price_to_key p)) →
    (∀ op ∈ ops, ∀ q ∈ opAskPrices op, Q (L2Orderbook.price_to_key q)) →
    (∀ k ∈ (runOps b ops).bids.map Prod.fst, P k) ∧
    (∀ k ∈ (runOps b ops).asks.map Prod.fst, Q k) := by
  induction ops with
  | nil => intro b P Q hP hQ _ _; exact ⟨hP, hQ⟩
  | cons op ops ih =>
    intro b P Q hP hQ hbid hask
    cases op with
    | snap s =>
      have hstep : runOps b (BookOp.snap s :: ops) = runOps (b.apply_snapshot s) ops := rfl
      rw [hstep]
      apply ih
      · intro k hk
        have hmem := (apply_snapshot_keys b s).1 k hk
        simp only [List.mem_map] at hmem
        rcases hmem with ⟨level, hlev, rfl⟩
        exact hbid (BookOp.snap s) (by simp)
          level.price (by simp [opBidPrices, List.mem_map]; exact ⟨level, hlev, rfl⟩)
      · intro k hk
        have hmem := (apply_snapshot_keys b s).2 k hk
        simp only [List.mem_map] at hmem
        rcases hmem with ⟨level, hlev, rfl⟩
        exact hask (BookOp.snap s) (by simp)
          level.price (by simp [opAskPrices, List.mem_map]; exact ⟨level, hlev, rfl⟩)
      · intro op' hop'; exact hbid op' (by simp [hop'])
      · intro op' hop'; exact hask op' (by simp [hop'])
    | delta d =>
      have hstep : runOps b (BookOp.delta d :: ops) =
          runOps (b.apply_delta d.price d.qty d.is_bid d.seq_id d.now_ns).2 ops := rfl
      rw [hstep]
      apply ih
      · intro k hk
        rcases (apply_delta_keys b d.price d.qty d.is_bid d.seq_id d.now_ns).1 k hk with
          ⟨hbb, rfl⟩ | h
        · exact hbid (BookOp.delta d) (by simp) d.price (by simp [opBidPrices, hbb])
        · exact hP k h
      · intro k hk
        rcases (apply_delta_keys b d.price d.qty d.is_bid d.seq_id d.now_ns).2 k hk with
          ⟨hbb, rfl⟩ | h
        · exact hask (BookOp.delta d) (by simp) d.price (by simp [opAskPrices, hbb])
        · exact hQ k h
      · intro op' hop'; exact hbid op' (by simp [hop'])
      · intro op' hop'; exact hask op' (by simp [hop'])

/-- C3 amended: Starting from a new order book, for every sequence of
snapshot/delta operations in which every bid price supplied by any
operation quantizes strictly below every ask price supplied by any
operation, whenever `best_bid` and `best_ask` are both defined,
`best_bid < best_ask`. (The engine itself never checks crossing: the
counterexample shows a snapshot or an accepted delta can cross the book,
so the hypothesis on the supplied prices is necessary.) -/
theorem claim_C3_amended (s : String) (ops : List BookOp)
    (hcross : ∀ op ∈ ops, ∀ p ∈ opBidPrices op, ∀ op' ∈ ops, ∀ q ∈ opAskPrices op',
      L2Orderbook.price_to_key p < L2Orderbook.price_to_key q)
    (bid ask : ℚ)
    (hbid : (runOps (L2Orderbook.new s) ops).best_bid = some bid)
    (hask : (runOps (L2Orderbook.new s) ops).best_ask = some ask) :
    bid < ask := by
  have hkeys := runOps_keys ops (L2Orderbook.new s)
    (fun k => ∃ op ∈ ops, ∃ p ∈ opBidPrices op, k = L2Orderbook.price_to_key p)
    (fun k => ∃ op ∈ ops, ∃ q ∈ opAskPrices op, k = L2Orderbook.price_to_key q)
    (by intro k hk; simp [L2Orderbook.new] at hk)
    (by intro k hk; simp [L2Orderbook.new] at hk)
    (by intro op hop p hp; exact ⟨op, hop, p, hp, rfl⟩)
    (by intro op hop q hq; exact ⟨op, hop, q, hq, rfl⟩)
  rw [L2Orderbook.best_bid] at hbid
  rw [L2Orderbook.best_ask] at hask
  rcases Option.map_eq_some'.mp hbid with ⟨kb, hkb, rfl⟩
  rcases Option.map_eq_some'.mp hask with ⟨ka, hka, rfl⟩
  have hkbm : kb ∈ (runOps (L2Orderbook.new s) ops).bids.map Prod.fst :=
    List.max?_mem (fun a b => max_choice a b) hkb
  have hkam : ka ∈ (runOps (L2Orderbook.new s) ops).asks.map Prod.fst :=
    List.min?_mem (fun a b => min_choice a b) hka
  rcases hkeys.1 kb hkbm with ⟨op, hop, p, hp, rfl⟩
  rcases hkeys.2 ka hkam with ⟨op', hop', q, hq, rfl⟩
  have hlt : L2Orderbook.price_to_key p < L2Orderbook.price_to_key q :=
    hcross op hop p hp op' hop' q hq
  rw [L2Orderbook.key_to_price, L2Orderbook.key_to_price]
  exact (div_lt_div_iff_of_pos_right (by norm_num)).mpr (by exact_mod_cast hlt)

/-- The non-crossing snapshot used as the C3 witness. -/
def c3w_ops : List BookOp :=
  [BookOp.snap
    { symbol := "X", bids := [{ price := 100, quantity := 1 }],
      asks := [{ price := 101, quantity := 1 }], seq_id := 1, timestamp_ns := 0 }]

lemma c3w_best_bid : (runOps (L2Orderbook.new "X") c3w_ops).best_bid = some 100 := by
  simp [c3w_ops, runOps, L2Orderbook.apply_snapshot, L2Orderbook.new, bookInsert,
    ptk_100, ptk_101, L2Orderbook.best_bid, L2Orderbook.key_to_price]
  norm_num

lemma c3w_best_ask : (runOps (L2Orderbook.new "X") c3w_ops).best_ask = some 101 := by
  simp [c3w_ops, runOps, L2Orderbook.apply_snapshot, L2Orderbook.new, bookInsert,
    ptk_100, ptk_101, L2Orderbook.best_ask, L2Orderbook.key_to_price]
  norm_num

lemma c3w_cross : ∀ op ∈ c3w_ops, ∀ p ∈ opBidPrices op, ∀ op' ∈ c3w_ops,
    ∀ q ∈ opAskPrices op', L2Orderbook.price_to_key p < L2Orderbook.price_to_key q := by
  simp [c3w_ops, opBidPrices, opAskPrices, ptk_100, ptk_101]

/-- C3 amended witness: The amended claim instantiated on a concrete
non-crossing snapshot. -/
theorem claim_C3_amended_witness :
    (∀ op ∈ c3w_ops, ∀ p ∈ opBidPrices op, ∀ op' ∈ c3w_ops,
      ∀ q ∈ opAskPrices op', L2Orderbook.price_to_key p < L2Orderbook.price_to_key q) ∧
    (runOps (L2Orderbook.new "X") c3w_ops).best_bid = some 100 ∧
    (runOps (L2Orderbook.new "X") c3w_ops).best_ask = some 101 ∧
    (100 : ℚ) < 101 :=
  ⟨c3w_cross, c3w_best_bid, c3w_best_ask,
   claim_C3_amended "X" c3w_ops c3w_cross 100 101 c3w_best_bid c3w_best_ask⟩
